import Mathlib

set_option maxRecDepth 100000

/-!
Shallow embedding of the lft2 backtest engine.

Prices are modelled as exact rationals (the C++ uses `double`; every claim
checked here is about thresholds and control flow, not floating-point
rounding).  Sources embedded:

* `src/src/bar.h`       — `bar`, `is_valid`
* `src/src/params.h`    — `trading_params`, `default_params`, `calculate_levels`
* `src/src/exit.h`      — `position`, `exit_reason`, `check_exit`, `is_exit`
* `src/src/market.h`    — `extract_hour`, `extract_minute`, `market_open`,
                          `risk_on`, `risk_off`
* `src/src/entry.h`     — the five entry predicates and `is_entry`
* `src/src/nstd.h`      — `nstd::sqrt` (Newton-Raphson)
* `src/src/backtest.cxx`— the trading loop of `run_backtest` (as an explicit
                          per-index step function folded over bar indices) and
                          the statistics computed from the completed trades
* `src/src/backtest/main.cxx` — `StrategyResult` and the recommendation filter
-/

/-- `bar` from src/src/bar.h (field `open` renamed `open_`: Lean keyword). -/
structure Bar where
  close : ℚ
  high : ℚ
  low : ℚ
  open_ : ℚ
  vwap : ℚ
  volume : ℕ
  num_trades : ℕ
  timestamp : String
deriving DecidableEq

/-- Value-initialised `bar` (all zeros, empty timestamp), used as the
out-of-range default for list indexing; the simulator's loop bounds keep all
real accesses in range. -/
def bdefault : Bar := ⟨0, 0, 0, 0, 0, 0, 0, ""⟩

/-- Bar-series indexing `bars[i]` with the value-initialised default out of
range (the loop bounds of the source keep all real accesses in range). -/
def bget (bs : List Bar) (i : ℕ) : Bar := bs.getD i bdefault

/-- `is_valid` from src/src/bar.h: OHLC ordering, positive prices, vwap in
range when non-zero, timestamp at least 20 chars with dashes at positions
4 and 7. -/
def is_valid (b : Bar) : Bool :=
  if ¬ (b.close ≤ b.high ∧ b.open_ ≤ b.high ∧ b.low ≤ b.high ∧
        b.low ≤ b.close ∧ b.low ≤ b.open_) then false
  else if b.close ≤ 0 ∨ b.high ≤ 0 ∨ b.low ≤ 0 ∨ b.open_ ≤ 0 then false
  else if 0 < b.vwap ∧ (b.vwap < b.low ∨ b.high < b.vwap) then false
  else if b.timestamp.length = 0 ∨ b.timestamp.length < 20 then false
  else if ¬ (b.timestamp.toList.getD 4 'x' = '-' ∧
             b.timestamp.toList.getD 7 'x' = '-') then false
  else true

/-- `trading_params` from src/src/params.h. -/
structure trading_params where
  take_profit_pct : ℚ
  stop_loss_pct : ℚ
  trailing_stop_pct : ℚ
deriving DecidableEq

/-- `default_params` from src/src/params.h. -/
def default_params : trading_params :=
  { take_profit_pct := 0.0125, stop_loss_pct := 0.0125, trailing_stop_pct := 0.01 }

/-- Return type of `calculate_levels` (local struct in src/src/params.h). -/
structure levels where
  take_profit : ℚ
  stop_loss : ℚ
  trailing_stop : ℚ
deriving DecidableEq

/-- `calculate_levels` from src/src/params.h. -/
def calculate_levels (entry_price : ℚ) (params : trading_params) : levels :=
  { take_profit := entry_price * (1 + params.take_profit_pct),
    stop_loss := entry_price * (1 - params.stop_loss_pct),
    trailing_stop := entry_price * (1 - params.trailing_stop_pct) }

/-- `position` from src/src/exit.h. -/
structure position where
  entry_price : ℚ
  take_profit : ℚ
  stop_loss : ℚ
  trailing_stop : ℚ
deriving DecidableEq

/-- `exit_reason` from src/src/exit.h. -/
inductive exit_reason where
  | none
  | take_profit
  | stop_loss
  | trailing_stop
  | risk_off
  | end_of_data
deriving DecidableEq

/-- `check_exit` from src/src/exit.h: invalid bar yields `none`; otherwise
take-profit, stop-loss, trailing-stop tested in that order on the close. -/
def check_exit (pos : position) (current : Bar) : exit_reason :=
  if is_valid current = false then exit_reason.none
  else if pos.take_profit ≤ current.close then exit_reason.take_profit
  else if current.close ≤ pos.stop_loss then exit_reason.stop_loss
  else if current.close ≤ pos.trailing_stop then exit_reason.trailing_stop
  else exit_reason.none

/-- `is_exit` from src/src/exit.h. -/
def is_exit (pos : position) (current : Bar) : Bool :=
  decide (check_exit pos current ≠ exit_reason.none)

/-- `extract_hour` from src/src/market.h: digits at positions 11-12, `-1` on
short or malformed input. -/
def extract_hour (ts : String) : Int :=
  if ts.length < 14 then -1
  else
    let c1 := ts.toList.getD 11 'x'
    let c2 := ts.toList.getD 12 'x'
    if c1 < '0' ∨ '9' < c1 then -1
    else if c2 < '0' ∨ '9' < c2 then -1
    else ((c1.toNat - '0'.toNat) * 10 + (c2.toNat - '0'.toNat) : ℕ)

/-- `extract_minute` from src/src/market.h: digits at positions 14-15. -/
def extract_minute (ts : String) : Int :=
  if ts.length < 17 then -1
  else
    let c1 := ts.toList.getD 14 'x'
    let c2 := ts.toList.getD 15 'x'
    if c1 < '0' ∨ '9' < c1 then -1
    else if c2 < '0' ∨ '9' < c2 then -1
    else ((c1.toNat - '0'.toNat) * 10 + (c2.toNat - '0'.toNat) : ℕ)

/-- `to_minutes_utc` from src/src/market.h. -/
def to_minutes_utc (hour minute : Int) : Int := hour * 60 + minute

/-- `market_open` from src/src/market.h (winter hours, 14:30-21:00 UTC). -/
def market_open (ts : String) : Bool :=
  let hour := extract_hour ts
  let minute := extract_minute ts
  if hour < 0 ∨ minute < 0 then false
  else
    let current := to_minutes_utc hour minute
    decide (to_minutes_utc 14 30 ≤ current ∧ current < to_minutes_utc 21 0)

/-- `risk_on` from src/src/market.h: between one hour after open and 30
minutes before close. -/
def risk_on (ts : String) : Bool :=
  let hour := extract_hour ts
  let minute := extract_minute ts
  if hour < 0 ∨ minute < 0 then false
  else
    let current := to_minutes_utc hour minute
    decide (to_minutes_utc 14 30 + 60 ≤ current ∧ current < to_minutes_utc 21 0 - 30)

/-- `risk_off` from src/src/market.h: market open but outside the safe
window. -/
def risk_off (ts : String) : Bool :=
  if market_open ts = false then false else !(risk_on ts)

/-- Reverse indexing `history[history.size() - 1 - i]` used throughout
src/src/entry.h. -/
def ridx (h : List Bar) (i : ℕ) : Bar := h.getD (h.length - 1 - i) bdefault

/-- Forward indexing `history[history.size() - lookback + i]` used by the
averaging loops in src/src/entry.h. -/
def fidx (h : List Bar) (lookback i : ℕ) : Bar := h.getD (h.length - lookback + i) bdefault

/-- The 20-bar average-volume computation of `volume_surge_dip`
(src/src/entry.h): sum of the last 20 bars' volumes over 20. -/
def vsd_avg_vol (h : List Bar) : ℚ :=
  ((List.range 20).foldl (fun a i => a + ((fidx h 20 i).volume : ℚ)) 0) / 20

/-- `volume_surge_dip` from src/src/entry.h: current volume above 2x the
20-bar average volume and the bar down more than 1%. -/
def volume_surge_dip (h : List Bar) : Bool :=
  if h.length < 20 then false
  else if !((List.range 20).all fun i => is_valid (ridx h i)) then false
  else if vsd_avg_vol h = 0 then false
  else
    let current := ridx h 0
    let vol_ratio := (current.volume : ℚ) / vsd_avg_vol h
    let price_change_pct := (current.close - current.open_) / current.open_ * 100
    decide (2 < vol_ratio ∧ price_change_pct < -1)

/-- The Newton-Raphson loop of `nstd::sqrt` from src/src/nstd.h: up to 100
iterations, stopping once successive guesses differ by less than `0.00001`. -/
def newton_loop (x : ℚ) : ℕ → ℚ → ℚ
  | 0, g => g
  | n + 1, g =>
    let g' := (g + x / g) / 2
    if g' - g < 0.00001 ∧ g - g' < 0.00001 then g'
    else newton_loop x n g'

/-- `nstd::sqrt` from src/src/nstd.h. -/
def nstd_sqrt (x : ℚ) : ℚ :=
  if x < 0 then 0
  else if x = 0 then 0
  else newton_loop x 100 x

/-- `mean_reversion` from src/src/entry.h: close more than 2 standard
deviations below the 20-bar mean (flat series guarded by the 0.0001
threshold). -/
def mean_reversion (h : List Bar) : Bool :=
  if h.length < 20 then false
  else if !((List.range 20).all fun i => is_valid (ridx h i)) then false
  else
    let ma := ((List.range 20).foldl (fun a i => a + (fidx h 20 i).close) 0) / 20
    let variance := (List.range 20).foldl
      (fun a i => a + ((fidx h 20 i).close - ma) * ((fidx h 20 i).close - ma)) 0
    let std_dev := nstd_sqrt (variance / 20)
    if std_dev < 0.0001 then false
    else
      let current_price := (ridx h 0).close
      decide ((current_price - ma) / std_dev < -2)

/-- `sma_crossover<10, 20>` from src/src/entry.h (the instantiation used by
`is_entry`): previous short SMA at or below previous long SMA and current
short SMA strictly above current long SMA. -/
def sma_crossover (h : List Bar) : Bool :=
  if h.length < 21 then false
  else if !((List.range 21).all fun i => is_valid (ridx h i)) then false
  else
    let short_sma := ((List.range 10).foldl (fun a i => a + (ridx h i).close) 0) / 10
    let long_sma := ((List.range 20).foldl (fun a i => a + (ridx h i).close) 0) / 20
    let prev_short_sma := ((List.range 10).foldl (fun a i => a + (ridx h (i + 1)).close) 0) / 10
    let prev_long_sma := ((List.range 20).foldl (fun a i => a + (ridx h (i + 1)).close) 0) / 20
    decide (prev_short_sma ≤ prev_long_sma ∧ long_sma < short_sma)

/-- `price_dip` from src/src/entry.h: single bar closing more than 1% below
its open (needs at least 2 bars of history). -/
def price_dip (h : List Bar) : Bool :=
  if h.length < 2 then false
  else
    let current := ridx h 0
    if !(is_valid current) then false
    else decide ((current.close - current.open_) / current.open_ * 100 < -1)

/-- `volatility_breakout` from src/src/entry.h: mean 5-bar range/close above
1.5x the mean of the preceding 20 bars, with the current bar closing up. -/
def volatility_breakout (h : List Bar) : Bool :=
  if h.length < 25 then false
  else if !((List.range 5).all fun i => is_valid (ridx h i)) then false
  else
    let recent_vol :=
      ((List.range 5).foldl
        (fun a i => a + ((ridx h i).high - (ridx h i).low) / (ridx h i).close) 0) / 5
    if !((List.range 20).all fun i => is_valid (ridx h (5 + i))) then false
    else
      let hist_vol :=
        ((List.range 20).foldl
          (fun a i => a + ((ridx h (5 + i)).high - (ridx h (5 + i)).low) / (ridx h (5 + i)).close) 0) / 20
      if hist_vol < 0.0001 then false
      else
        let current := ridx h 0
        decide (hist_vol * 1.5 < recent_vol ∧ 0 < (current.close - current.open_) / current.open_ * 100)

/-- `is_entry` from src/src/entry.h: the five strategies tried in priority
order, accepting if any accepts. -/
def is_entry (h : List Bar) : Bool :=
  volume_surge_dip h || mean_reversion h || sma_crossover h || price_dip h ||
    volatility_breakout h

/-- `trade_result` from src/src/backtest.cxx.  No exit-reason field exists in
the source struct; a completed trade records bars, prices, gain and
duration only. -/
structure trade_result where
  entry_bar : ℕ
  exit_bar : ℕ
  entry_price : ℚ
  exit_price : ℚ
  gain_pct : ℚ
  duration_bars : ℕ
deriving DecidableEq

/-- The mutable state of the trading loop in `run_backtest`
(src/src/backtest.cxx): the trade list, the `in_position` flag, the current
`position` and `entry_bar_idx`. -/
structure SimState where
  trades : List trade_result
  in_position : Bool
  pos : position
  entry_bar_idx : ℕ
deriving DecidableEq

/-- The `is_gap` lambda of `run_backtest`: out-of-range indices are not a
gap; otherwise the `YYYY-MM-DD` prefixes (first 10 chars) of the two
timestamps differ. -/
def is_gap (bs : List Bar) (prev_idx curr_idx : ℕ) : Bool :=
  if bs.length ≤ prev_idx ∨ bs.length ≤ curr_idx then false
  else decide ((bget bs prev_idx).timestamp.toList.take 10 ≠
               (bget bs curr_idx).timestamp.toList.take 10)

/-- The entry history `std::span{bars.data(), i + 1}.last(21)` of
`run_backtest`: the last 21 bars of the prefix ending at index `i`. -/
def entry_window (bs : List Bar) (i : ℕ) : List Bar :=
  (bs.take (i + 1)).drop (i + 1 - 21)

/-- The trailing-stop update block of `run_backtest`: when the close exceeds
the entry price, raise the trailing stop to `close * (1 - trailing_stop_pct)`
if that is higher than the current trailing stop. -/
def update_trailing (pos : position) (current_price : ℚ) : position :=
  if pos.entry_price < current_price then
    let new_trailing := current_price * (1 - default_params.trailing_stop_pct)
    if pos.trailing_stop < new_trailing then { pos with trailing_stop := new_trailing }
    else pos
  else pos

/-- Builds the `trade_result` pushed by `run_backtest`: gain is
`(exit - entry) / entry * 100`, duration is `exit_bar - entry_bar` (both
close paths in the source compute exactly these). -/
def mk_trade (entry_bar exit_bar : ℕ) (entry_price exit_price : ℚ) : trade_result :=
  { entry_bar := entry_bar, exit_bar := exit_bar, entry_price := entry_price,
    exit_price := exit_price,
    gain_pct := (exit_price - entry_price) / entry_price * 100,
    duration_bars := exit_bar - entry_bar }

/-- The position constructed at fill time in `run_backtest`
(src/src/backtest.cxx): entry price plus the three absolute levels from
`calculate_levels(entry_price, default_params)`. -/
def entry_position (e : ℚ) : position :=
  { entry_price := e,
    take_profit := (calculate_levels e default_params).take_profit,
    stop_loss := (calculate_levels e default_params).stop_loss,
    trailing_stop := (calculate_levels e default_params).trailing_stop }

/-- One iteration of the trading loop of `run_backtest`
(src/src/backtest.cxx) at index `i`: skip invalid bars; while flat, evaluate
the entry rule on the last-21 window once 21 bars exist and fill at bar
`i + 1`'s open when that bar exists and is valid; while open, close at bar
`i - 1`'s close on a date gap, otherwise update the trailing stop and close
at bar `i`'s close when `is_exit` fires.  The entry rule is a parameter;
the source hardwires `is_entry`. -/
def sim_step (entry : List Bar → Bool) (bs : List Bar) (st : SimState) (i : ℕ) : SimState :=
  if is_valid (bget bs i) = false then st
  else if st.in_position = false then
    if 21 ≤ i then
      if entry (entry_window bs i) = true then
        if i + 1 < bs.length ∧ is_valid (bget bs (i + 1)) = true then
          { st with in_position := true,
                    pos := entry_position ((bget bs (i + 1)).open_),
                    entry_bar_idx := i + 1 }
        else st
      else st
    else st
  else
    if st.entry_bar_idx < i ∧ is_gap bs (i - 1) i = true then
      { st with in_position := false,
                trades := st.trades ++
                  [mk_trade st.entry_bar_idx (i - 1) st.pos.entry_price
                    ((bget bs (i - 1)).close)] }
    else
      if is_exit (update_trailing st.pos (bget bs i).close) (bget bs i) = true then
        { st with in_position := false,
                  pos := update_trailing st.pos (bget bs i).close,
                  trades := st.trades ++
                    [mk_trade st.entry_bar_idx i
                      (update_trailing st.pos (bget bs i).close).entry_price
                      ((bget bs i).close)] }
      else { st with pos := update_trailing st.pos (bget bs i).close }

/-- Initial loop state of `run_backtest`: no trades, flat, value-initialised
position, `entry_bar_idx = 0`. -/
def init_state : SimState :=
  { trades := [], in_position := false,
    pos := { entry_price := 0, take_profit := 0, stop_loss := 0, trailing_stop := 0 },
    entry_bar_idx := 0 }

/-- The complete trading loop of `run_backtest`: fold `sim_step` over bar
indices `0, …, bars.size() - 1` and return the completed trades in push
order. -/
def run_sim (entry : List Bar → Bool) (bs : List Bar) : List trade_result :=
  ((List.range bs.length).foldl (sim_step entry bs) init_state).trades

/-- The statistics fields of `backtest_result` (src/src/backtest.cxx) that
the claims concern: trade count, win rate and profit factor.  The remaining
fields (best/worst trade, suggested parameters, intraday extremes, entry
context) are independent of the claims and omitted. -/
structure backtest_result where
  trade_count : ℕ
  win_rate_pct : ℚ
  profit_factor : ℚ
deriving DecidableEq

/-- The `count_if` of winning trades in `run_backtest`: trades whose
`gain_pct` is strictly positive. -/
def win_count (trades : List trade_result) : ℕ :=
  (trades.filter fun t => decide (0 < t.gain_pct)).length

/-- The wins/losses accumulation loop of `run_backtest`: a strictly positive
gain is added to total wins, anything else adds its absolute value to total
losses. -/
def wins_losses (trades : List trade_result) : ℚ × ℚ :=
  trades.foldl
    (fun (p : ℚ × ℚ) t =>
      if 0 < t.gain_pct then (p.1 + t.gain_pct, p.2) else (p.1, p.2 + |t.gain_pct|))
    (0, 0)

/-- The statistics computation of `run_backtest`: on an empty trade list the
zero-initialised result is returned; otherwise the win rate is the share of
trades with strictly positive gain times 100, and the profit factor is total
wins over total losses, guarded to 0 when total losses are not positive. -/
def run_backtest (bs : List Bar) : backtest_result :=
  if run_sim is_entry bs = [] then { trade_count := 0, win_rate_pct := 0, profit_factor := 0 }
  else
    { trade_count := (run_sim is_entry bs).length,
      win_rate_pct :=
        (win_count (run_sim is_entry bs) : ℚ) / ((run_sim is_entry bs).length : ℚ) * 100,
      profit_factor :=
        if 0 < (wins_losses (run_sim is_entry bs)).2 then
          (wins_losses (run_sim is_entry bs)).1 / (wins_losses (run_sim is_entry bs)).2
        else 0 }

/-- `StrategyResult` from src/src/backtest/main.cxx. -/
structure StrategyResult where
  symbol : String
  strategy_name : String
  win_rate : ℚ
  avg_profit : ℚ
  trade_count : Int
deriving DecidableEq

/-- The recommendation filter of src/src/backtest/main.cxx `main`:
`win_rate >= 0.60 && avg_profit >= 0.01`. -/
def recommend (r : StrategyResult) : Bool :=
  decide (0.60 ≤ r.win_rate ∧ 0.01 ≤ r.avg_profit)

/-- The recommendation loop of src/src/backtest/main.cxx `main`: results are
scanned in order and the passing ones appended, so the output is the
order-preserving filter by `recommend`. -/
def recommendations (results : List StrategyResult) : List StrategyResult :=
  results.filter recommend

/-- The claim's viability predicate, stated from the spec's words for
comparison with the code (`trade_count ≥ 5 AND win_rate ≥ 0.50`): not a
translation of any source function. -/
def spec_viable (r : StrategyResult) : Bool :=
  decide (5 ≤ r.trade_count ∧ (0.50 : ℚ) ≤ r.win_rate)

/-- A flat in-session-closed bar (market already closed at 22:00 UTC) used to
build concrete series. -/
def flat_bar : Bar := ⟨100, 101, 99, 100, 100, 1000, 50, "2026-02-16T22:00:00Z"⟩

/-- A volume-surge dip bar: volume 3000 versus the flat 1000, close 2% below
open. -/
def dip_bar : Bar := ⟨98, 101, 97, 100, 99, 3000, 150, "2026-02-16T22:05:00Z"⟩

/-- Concrete series A: 21 flat bars, the dip bar (entry signal at index 21),
a quiet fill bar, a take-profit bar closing at 101.5, and a final bar opening
at 103.  All timestamps fall on one date after the 21:00 UTC close. -/
def exA : List Bar :=
  List.replicate 21 flat_bar ++
    [dip_bar,
     ⟨100.5, 101, 99, 100, 100, 1000, 50, "2026-02-16T22:10:00Z"⟩,
     ⟨101.5, 102, 100, 101, 101, 1000, 50, "2026-02-16T22:15:00Z"⟩,
     ⟨101.5, 104, 101, 103, 102, 3000, 150, "2026-02-16T22:20:00Z"⟩]

/-- The single trade series A produces: entered at bar 22's open (100),
closed by take-profit at bar 23's close (101.5). -/
def tA : trade_result :=
  { entry_bar := 22, exit_bar := 23, entry_price := 100, exit_price := 101.5,
    gain_pct := 1.5, duration_bars := 1 }

/-- Concrete series B: like series A up to the fill, but prices stay inside
all exit levels and the final bar falls on the next calendar date, so the
position is force-closed by the date-gap path at bar 23's close. -/
def exB : List Bar :=
  List.replicate 21 flat_bar ++
    [dip_bar,
     ⟨100.5, 101, 99, 100, 100, 1000, 50, "2026-02-16T22:10:00Z"⟩,
     ⟨100.4, 101, 99, 100, 100, 1000, 50, "2026-02-16T22:15:00Z"⟩,
     ⟨100, 101, 99, 100, 100, 1000, 50, "2026-02-17T14:35:00Z"⟩]

/-- The single trade series B produces: gap-closed at bar 23's close
(100.4), gain 0.4%. -/
def tB : trade_result :=
  { entry_bar := 22, exit_bar := 23, entry_price := 100, exit_price := 100.4,
    gain_pct := 0.4, duration_bars := 1 }

/-- Concrete series C: like series B but bar 23 closes exactly at the entry
price, producing a single break-even trade (gain exactly 0). -/
def exC : List Bar :=
  List.replicate 21 flat_bar ++
    [dip_bar,
     ⟨100.5, 101, 99, 100, 100, 1000, 50, "2026-02-16T22:10:00Z"⟩,
     ⟨100, 101, 99, 100, 100, 1000, 50, "2026-02-16T22:15:00Z"⟩,
     ⟨100, 101, 99, 100, 100, 1000, 50, "2026-02-17T14:35:00Z"⟩]

/-- The take-profit test bar of Scenario C (close 110). -/
def barC : Bar := ⟨110, 110.5, 109, 109.5, 109.8, 1000, 50, "2025-01-01T10:00:00Z"⟩

/-- Scenario A's history: 24 flat bars (close 100, volume 1000) then a dip
bar with open 99, close 97, volume 3000. -/
def scenarioA : List Bar :=
  List.replicate 24 ⟨100, 101, 99, 100, 100, 1000, 50, "2026-01-01T10:00:00Z"⟩ ++
    [⟨97, 100, 97, 99, 98, 3000, 150, "2026-01-01T11:00:00Z"⟩]

/-- A strategy result that is viable under the claim's rule (10 trades, 55%
win rate) but rejected by the code's 60% filter. -/
def rE : StrategyResult :=
  { symbol := "AAPL", strategy_name := "mean_reversion", win_rate := 0.55,
    avg_profit := 0.02, trade_count := 10 }

/-- A recommended result with win rate 0.61. -/
def rF : StrategyResult :=
  { symbol := "AAPL", strategy_name := "sma_crossover", win_rate := 0.61,
    avg_profit := 0.02, trade_count := 10 }

/-- A recommended result with win rate 0.65 (same symbol as `rF`). -/
def rG : StrategyResult :=
  { symbol := "AAPL", strategy_name := "volume_surge", win_rate := 0.65,
    avg_profit := 0.02, trade_count := 10 }

lemma foldl_add_map (f : ℕ → ℚ) : ∀ (l : List ℕ) (a : ℚ),
    l.foldl (fun acc i => acc + f i) a = a + (l.map f).sum := by
  intro l
  induction l with
  | nil => simp
  | cons x xs ih => intro a; simp [ih (a + f x), add_assoc]

/-- C4: `check_exit` classifies a valid bar by testing take-profit, then
stop-loss, then trailing-stop on the close, in that priority order, and
returns `none` exactly when no level is hit. -/
theorem C4_check_exit_priority (pos : position) (b : Bar) (hv : is_valid b = true) :
    (check_exit pos b = exit_reason.take_profit ↔ pos.take_profit ≤ b.close) ∧
    (check_exit pos b = exit_reason.stop_loss ↔
      b.close < pos.take_profit ∧ b.close ≤ pos.stop_loss) ∧
    (check_exit pos b = exit_reason.trailing_stop ↔
      b.close < pos.take_profit ∧ pos.stop_loss < b.close ∧ b.close ≤ pos.trailing_stop) ∧
    (check_exit pos b = exit_reason.none ↔
      b.close < pos.take_profit ∧ pos.stop_loss < b.close ∧ pos.trailing_stop < b.close) := by
  unfold check_exit
  simp only [hv, Bool.true_eq_false, if_false]
  split_ifs with h1 h2 h3 <;> simp_all [not_le]

/-- C4 witness: Scenario C — `Position{entry=100, tp=110, sl=90,
trailing=85}` with close 110 classifies as take-profit. -/
theorem C4_witness :
    check_exit { entry_price := 100, take_profit := 110, stop_loss := 90,
                 trailing_stop := 85 } barC = exit_reason.take_profit :=
  (C4_check_exit_priority _ barC (by with_unfolding_all decide)).1.mpr
    (by with_unfolding_all decide)

/-- C5 (amended): `check_exit` never returns `risk_off` or `end_of_data`,
and the price-based close fires exactly when the computed reason is one of
take-profit, stop-loss or trailing-stop; the `trade_result` record itself
carries no exit reason. -/
theorem C5_price_exit_reasons (pos : position) (b : Bar) :
    check_exit pos b ≠ exit_reason.risk_off ∧
    check_exit pos b ≠ exit_reason.end_of_data ∧
    (is_exit pos b = true ↔
      check_exit pos b = exit_reason.take_profit ∨
      check_exit pos b = exit_reason.stop_loss ∨
      check_exit pos b = exit_reason.trailing_stop) := by
  unfold is_exit check_exit
  split_ifs <;> simp

/-- C5 counterexample: on series B the simulator still holds the position
after processing bar 23 and `check_exit` on bar 23 yields `none`
("still holding"); at bar 24 the date-gap path closes the trade, so the
closed trade's exit corresponds to no member of {take_profit, stop_loss,
trailing_stop, risk_off, end_of_data} — and the produced `trade_result`
stores no reason at all. -/
theorem C5_counterexample :
    run_sim is_entry exB = [tB] ∧
    ((List.range 24).foldl (sim_step is_entry exB) init_state).in_position = true ∧
    check_exit ((List.range 24).foldl (sim_step is_entry exB) init_state).pos
      (bget exB 23) = exit_reason.none := by
  with_unfolding_all decide

/-- C7 (amended): the recommendation pass of src/src/backtest/main.cxx keeps
a result iff `win_rate ≥ 0.60` and `avg_profit ≥ 0.01` (trade count is not
consulted), and it preserves the input order rather than sorting. -/
theorem C7_recommendation_filter (rs : List StrategyResult) :
    (recommendations rs).Sublist rs ∧
    (∀ r, r ∈ recommendations rs ↔
      r ∈ rs ∧ (0.60 : ℚ) ≤ r.win_rate ∧ (0.01 : ℚ) ≤ r.avg_profit) := by
  constructor
  · exact List.filter_sublist _
  · intro r
    rw [recommendations, List.mem_filter, recommend]
    simp [decide_eq_true_eq]

/-- C7 counterexample: `rE` (win rate 0.55, 10 trades) is viable under the
claim's rule but the code drops it, and the two kept results come out in
input order (0.61 before 0.65), not win-rate descending. -/
theorem C7_counterexample :
    spec_viable rE = true ∧ recommend rE = false ∧
    recommendations [rF, rE, rG] = [rF, rG] ∧ rF.win_rate < rG.win_rate := by
  with_unfolding_all decide

/-- C8: `volume_surge_dip` rejects any history shorter than 20 bars; on a
history whose last 20 bars are valid it accepts iff the current volume
exceeds twice the 20-bar average volume and the bar fell by more than 1%;
and it accepts Scenario A's history. -/
theorem C8_volume_surge_dip_characterisation :
    (∀ h : List Bar, h.length < 20 → volume_surge_dip h = false) ∧
    (∀ h : List Bar, 20 ≤ h.length →
      ((List.range 20).all fun i => is_valid (ridx h i)) = true →
      (volume_surge_dip h = true ↔
        2 * vsd_avg_vol h < ((ridx h 0).volume : ℚ) ∧
        ((ridx h 0).close - (ridx h 0).open_) / (ridx h 0).open_ * 100 < -1)) ∧
    volume_surge_dip scenarioA = true := by
  refine ⟨?_, ?_, by with_unfolding_all decide⟩
  · intro h hlen
    unfold volume_surge_dip
    rw [if_pos hlen]
  · intro h hlen hvalid
    have hsum : vsd_avg_vol h =
        ((List.range 20).map fun i => ((fidx h 20 i).volume : ℚ)).sum / 20 := by
      unfold vsd_avg_vol
      rw [foldl_add_map]
      ring_nf
    have hnonneg : ∀ x ∈ (List.range 20).map fun i => ((fidx h 20 i).volume : ℚ), 0 ≤ x := by
      intro x hx
      rcases List.mem_map.mp hx with ⟨i, _, rfl⟩
      positivity
    have havg_nonneg : 0 ≤ vsd_avg_vol h := by
      rw [hsum]
      have := List.sum_nonneg hnonneg
      positivity
    have hcur : fidx h 20 19 = ridx h 0 := by
      unfold fidx ridx
      congr 1
      omega
    have hmem : ((ridx h 0).volume : ℚ) ∈ (List.range 20).map fun i => ((fidx h 20 i).volume : ℚ) := by
      rw [← hcur]
      exact List.mem_map_of_mem _ (List.mem_range.mpr (by omega))
    have hcur_le : ((ridx h 0).volume : ℚ) ≤ 20 * vsd_avg_vol h := by
      have := List.single_le_sum hnonneg _ hmem
      rw [hsum]
      linarith
    unfold volume_surge_dip
    rw [if_neg (by omega), if_neg (by simp [hvalid])]
    by_cases h0 : vsd_avg_vol h = 0
    · rw [if_pos h0]
      constructor
      · intro hfalse
        exact absurd hfalse (by simp)
      · rintro ⟨hvol, -⟩
        rw [h0] at hvol hcur_le
        norm_num at hvol hcur_le
        exact absurd hvol (by linarith [hcur_le])
    · rw [if_neg h0]
      have hpos : 0 < vsd_avg_vol h := lt_of_le_of_ne havg_nonneg (Ne.symm h0)
      rw [decide_eq_true_eq, lt_div_iff₀ hpos]

/-- C8 witness: a 10-bar history is rejected, and Scenario A's accepted
history satisfies the characterisation's thresholds. -/
theorem C8_witness :
    volume_surge_dip (List.replicate 10 flat_bar) = false ∧
    (volume_surge_dip scenarioA = true ↔
      2 * vsd_avg_vol scenarioA < ((ridx scenarioA 0).volume : ℚ) ∧
      ((ridx scenarioA 0).close - (ridx scenarioA 0).open_) / (ridx scenarioA 0).open_ * 100 < -1) :=
  ⟨C8_volume_surge_dip_characterisation.1 _ (by with_unfolding_all decide),
   C8_volume_surge_dip_characterisation.2.1 scenarioA (by with_unfolding_all decide)
     (by with_unfolding_all decide)⟩

/-- C2: while flat with at least 21 bars of history, an accepted entry
signal at a valid bar `i` whose successor exists and is valid fills at bar
`i+1`'s open, installing take-profit, stop-loss and trailing-stop from
`calculate_levels` applied to that fill price; and the entry decision at `i`
reads only the prefix `0..i`, so any series agreeing on that prefix yields
the same decision. -/
theorem C2_entry_next_open_no_lookahead (bs : List Bar) (st : SimState) (i : ℕ)
    (hflat : st.in_position = false)
    (hvalid : is_valid (bget bs i) = true)
    (h21 : 21 ≤ i)
    (hacc : is_entry (entry_window bs i) = true)
    (hnext : i + 1 < bs.length)
    (hvnext : is_valid (bget bs (i + 1)) = true) :
    sim_step is_entry bs st i =
      { st with in_position := true,
                pos := entry_position ((bget bs (i + 1)).open_),
                entry_bar_idx := i + 1 } ∧
    ∀ bs' : List Bar, bs.take (i + 1) = bs'.take (i + 1) →
      is_entry (entry_window bs i) = is_entry (entry_window bs' i) := by
  constructor
  · unfold sim_step
    rw [if_neg (by simp [hvalid]), if_pos hflat, if_pos h21, if_pos hacc,
      if_pos ⟨hnext, hvnext⟩]
  · intro bs' hpre
    unfold entry_window
    rw [hpre]

/-- C2 witness: on series A at index 21 the flat simulator accepts and
fills at bar 22's open with the computed levels. -/
theorem C2_witness :
    sim_step is_entry exA init_state 21 =
      { init_state with in_position := true,
                        pos := entry_position ((bget exA 22).open_),
                        entry_bar_idx := 22 } :=
  (C2_entry_next_open_no_lookahead exA init_state 21 rfl
    (by with_unfolding_all decide) (by norm_num) (by with_unfolding_all decide)
    (by with_unfolding_all decide) (by with_unfolding_all decide)).1

/-- C6 (amended): while flat, the simulator opens a position at index `i`
iff bar `i` is valid, at least 21 bars of history exist, the entry rule
accepts the last-21 window, and a valid successor bar exists — the session
calendar (`market_open` / `risk_off`) is never consulted. -/
theorem C6_entry_ignores_calendar (bs : List Bar) (st : SimState) (i : ℕ)
    (hflat : st.in_position = false) :
    (sim_step is_entry bs st i).in_position = true ↔
      is_valid (bget bs i) = true ∧ 21 ≤ i ∧
      is_entry (entry_window bs i) = true ∧ i + 1 < bs.length ∧
      is_valid (bget bs (i + 1)) = true := by
  unfold sim_step
  split_ifs with h1 h2 h3 h4 <;> simp_all

/-- C6 witness: on series A at index 21 (valid bar, accepted signal, valid
successor) the flat simulator ends the step holding a position. -/
theorem C6_witness : (sim_step is_entry exA init_state 21).in_position = true :=
  (C6_entry_ignores_calendar exA init_state 21 rfl).mpr
    (by with_unfolding_all decide)

/-- C6 counterexample: every bar of series A is timestamped after the 21:00
UTC close, so `market_open` is false (and hence `risk_off` is false) at the
signal bar 21 and the fill bar 22 — yet the simulator opens a position at
bar 22 and completes a trade. -/
theorem C6_counterexample :
    market_open ((bget exA 21).timestamp) = false ∧
    market_open ((bget exA 22).timestamp) = false ∧
    risk_off ((bget exA 21).timestamp) = false ∧
    run_sim is_entry exA = [tA] := by
  with_unfolding_all decide

lemma update_trailing_entry (pos : position) (c : ℚ) :
    (update_trailing pos c).entry_price = pos.entry_price := by
  simp only [update_trailing]
  split_ifs <;> rfl

lemma update_trailing_mono (pos : position) (c : ℚ) :
    pos.trailing_stop ≤ (update_trailing pos c).trailing_stop := by
  simp only [update_trailing]
  split_ifs with h1 h2
  · exact le_of_lt h2
  · exact le_refl _
  · exact le_refl _

lemma trail_fold_peak (cs : List ℚ) : ∀ (pos : position) (M : ℚ),
    pos.entry_price ≤ M →
    pos.trailing_stop = M * (1 - default_params.trailing_stop_pct) →
    (cs.foldl update_trailing pos).trailing_stop =
      (cs.foldl max M) * (1 - default_params.trailing_stop_pct) := by
  induction cs with
  | nil => intro pos M _ h; simpa using h
  | cons c cs ih =>
    intro pos M hM htr
    simp only [List.foldl_cons]
    have hk : (0 : ℚ) < 1 - default_params.trailing_stop_pct := by
      norm_num [default_params]
    apply ih
    · rw [update_trailing_entry]
      exact le_trans hM (le_max_left _ _)
    · simp only [update_trailing]
      split_ifs with h1 h2
      · rw [htr] at h2
        have hMc : M < c := (mul_lt_mul_right hk).mp h2
        simp [max_eq_right (le_of_lt hMc)]
      · rw [htr] at h2
        have hcM : c ≤ M := (mul_le_mul_right hk).mp (not_lt.mp h2)
        rw [htr, max_eq_left hcM]
      · push_neg at h1
        have hcM : c ≤ M := le_trans h1 hM
        rw [htr, max_eq_left hcM]

/-- C3: (1) one trailing-stop update never lowers the stop; (2) starting
from the fill levels, after any sequence of closes the trailing stop equals
the running peak of entry price and closes times `1 - trailing_stop_pct`,
so a close setting a new peak installs `close * (1 - trailing_stop_pct)`;
(3) on an open, valid, non-gap bar the step stores the trailing-updated
position and decides the exit on that updated position (update happens
before the exit checks); (4) while a position is held, no step of the
simulator ever lowers the stored trailing stop. -/
theorem C3_trailing_stop_ratchet :
    (∀ (pos : position) (c : ℚ),
      pos.trailing_stop ≤ (update_trailing pos c).trailing_stop) ∧
    (∀ (e : ℚ) (cs : List ℚ),
      (cs.foldl update_trailing (entry_position e)).trailing_stop =
        (cs.foldl max e) * (1 - default_params.trailing_stop_pct)) ∧
    (∀ (bs : List Bar) (st : SimState) (i : ℕ),
      st.in_position = true →
      is_valid (bget bs i) = true →
      ¬(st.entry_bar_idx < i ∧ is_gap bs (i - 1) i = true) →
      (sim_step is_entry bs st i).pos = update_trailing st.pos (bget bs i).close ∧
      ((sim_step is_entry bs st i).in_position = false ↔
        is_exit (update_trailing st.pos (bget bs i).close)
          (bget bs i) = true)) ∧
    (∀ (bs : List Bar) (st : SimState) (i : ℕ), st.in_position = true →
      st.pos.trailing_stop ≤ (sim_step is_entry bs st i).pos.trailing_stop) := by
  refine ⟨update_trailing_mono, ?_, ?_, ?_⟩
  · intro e cs
    exact trail_fold_peak cs (entry_position e) e (le_refl e) rfl
  · intro bs st i hpos hvalid hgap
    unfold sim_step
    rw [if_neg (by simp [hvalid]), if_neg (by simp [hpos]), if_neg hgap]
    constructor
    · split_ifs <;> rfl
    · split_ifs with h <;> simp_all
  · intro bs st i hpos
    unfold sim_step
    by_cases h1 : is_valid (bget bs i) = false
    · rw [if_pos h1]
    · rw [if_neg h1, if_neg (by simp [hpos])]
      by_cases h2 : st.entry_bar_idx < i ∧ is_gap bs (i - 1) i = true
      · rw [if_pos h2]
      · rw [if_neg h2]
        by_cases h3 : is_exit (update_trailing st.pos (bget bs i).close) (bget bs i) = true
        · rw [if_pos h3]
          exact update_trailing_mono _ _
        · rw [if_neg h3]
          exact update_trailing_mono _ _

/-- C3 witness: the ratchet inequality at the fill position with close 101,
and the step at series B's bar 23 (open position, valid, no gap) storing
the trailing-updated position without lowering the stop. -/
theorem C3_witness :
    ((entry_position 100).trailing_stop ≤
      (update_trailing (entry_position 100) 101).trailing_stop) ∧
    ((sim_step is_entry exB
        { trades := [], in_position := true, pos := entry_position 100,
          entry_bar_idx := 22 } 23).pos =
      update_trailing (entry_position 100) ((bget exB 23).close)) ∧
    ({ trades := [], in_position := true, pos := entry_position 100,
       entry_bar_idx := 22 } : SimState).pos.trailing_stop ≤
      (sim_step is_entry exB
        { trades := [], in_position := true, pos := entry_position 100,
          entry_bar_idx := 22 } 23).pos.trailing_stop :=
  ⟨C3_trailing_stop_ratchet.1 _ _,
   (C3_trailing_stop_ratchet.2.2.1 exB _ 23 rfl (by with_unfolding_all decide)
     (by with_unfolding_all decide)).1,
   C3_trailing_stop_ratchet.2.2.2 exB _ 23 rfl⟩

lemma sim_step_trades_closed (entry : List Bar → Bool) (bs : List Bar) (st : SimState)
    (i : ℕ) (hi : i < bs.length)
    (h : ∀ t ∈ st.trades, t.exit_price = (bget bs t.exit_bar).close ∧ t.exit_bar < bs.length) :
    ∀ t ∈ (sim_step entry bs st i).trades,
      t.exit_price = (bget bs t.exit_bar).close ∧ t.exit_bar < bs.length := by
  unfold sim_step
  split_ifs <;> intro t ht <;>
    first
    | exact h t ht
    | (rcases List.mem_append.mp ht with h' | h'
       · exact h t h'
       · rcases List.mem_singleton.mp h' with rfl
         refine ⟨rfl, ?_⟩
         simp only [mk_trade]
         omega)

lemma run_sim_trades_closed (entry : List Bar → Bool) (bs : List Bar) :
    ∀ (l : List ℕ) (st : SimState),
      (∀ i ∈ l, i < bs.length) →
      (∀ t ∈ st.trades, t.exit_price = (bget bs t.exit_bar).close ∧ t.exit_bar < bs.length) →
      ∀ t ∈ (l.foldl (sim_step entry bs) st).trades,
        t.exit_price = (bget bs t.exit_bar).close ∧ t.exit_bar < bs.length := by
  intro l
  induction l with
  | nil => intro st _ h; simpa using h
  | cons i l ih =>
    intro st hl h
    simp only [List.foldl_cons]
    exact ih _ (fun j hj => hl j (List.mem_cons_of_mem _ hj))
      (sim_step_trades_closed entry bs st i (hl i (List.mem_cons_self _ _)) h)

/-- C1 (amended): every trade the simulator produces exits at the close of
its (in-range) exit bar — the signal bar itself for price-based exits, the
last bar before the gap for date-gap closes — never at the following bar's
open. -/
theorem C1_exit_fills_at_bar_close (entry : List Bar → Bool) (bs : List Bar)
    (t : trade_result) (ht : t ∈ run_sim entry bs) :
    t.exit_price = (bget bs t.exit_bar).close ∧ t.exit_bar < bs.length :=
  run_sim_trades_closed entry bs (List.range bs.length) init_state
    (fun i hi => List.mem_range.mp hi) (by simp [init_state]) t ht

/-- C1 witness: series A's single trade exits at its exit bar's close. -/
theorem C1_witness :
    tA.exit_price = (bget exA tA.exit_bar).close ∧ tA.exit_bar < exA.length :=
  C1_exit_fills_at_bar_close is_entry exA tA (by with_unfolding_all decide)

/-- C1 counterexample: on series A the take-profit condition fires on bar 23
(evaluated on the trailing-updated position), and the recorded exit price is
bar 23's own close (101.5) — while bar 24's open is 103, so the exit is NOT
filled at bar `i+1`'s open as the claim states. -/
theorem C1_counterexample :
    run_sim is_entry exA = [tA] ∧
    is_exit (update_trailing ((List.range 23).foldl (sim_step is_entry exA) init_state).pos
      (bget exA 23).close) (bget exA 23) = true ∧
    tA.exit_price = (bget exA 23).close ∧
    (bget exA 24).open_ = 103 ∧
    tA.exit_price ≠ (bget exA 24).open_ := by
  with_unfolding_all decide

/-- C9: when any trade completed, the reported win rate is the count of
trades with strictly positive gain over the trade count, times 100; series
C's single break-even trade (gain exactly 0) is counted in `trade_count`
but yields a 0 win rate. -/
theorem C9_win_rate_strictly_positive :
    (∀ bs : List Bar, run_sim is_entry bs ≠ [] →
      (run_backtest bs).win_rate_pct =
        (((run_sim is_entry bs).filter fun t => decide (0 < t.gain_pct)).length : ℚ) /
          ((run_sim is_entry bs).length : ℚ) * 100) ∧
    run_sim is_entry exC =
      [{ entry_bar := 22, exit_bar := 23, entry_price := 100, exit_price := 100,
         gain_pct := 0, duration_bars := 1 }] ∧
    (run_backtest exC).trade_count = 1 ∧ (run_backtest exC).win_rate_pct = 0 := by
  refine ⟨?_, by with_unfolding_all decide, by with_unfolding_all decide,
    by with_unfolding_all decide⟩
  intro bs h
  unfold run_backtest win_count
  rw [if_neg h]

/-- C9 witness: the win-rate formula applied to series C. -/
theorem C9_witness :
    (run_backtest exC).win_rate_pct =
      (((run_sim is_entry exC).filter fun t => decide (0 < t.gain_pct)).length : ℚ) /
        ((run_sim is_entry exC).length : ℚ) * 100 :=
  C9_win_rate_strictly_positive.1 exC (by with_unfolding_all decide)

lemma wins_losses_aux (ts : List trade_result) : ∀ p : ℚ × ℚ,
    (∀ t ∈ ts, 0 < t.gain_pct) →
    (ts.foldl (fun (p : ℚ × ℚ) t =>
      if 0 < t.gain_pct then (p.1 + t.gain_pct, p.2) else (p.1, p.2 + |t.gain_pct|)) p).2
      = p.2 := by
  induction ts with
  | nil => intro p _; rfl
  | cons t ts ih =>
    intro p hall
    simp only [List.foldl_cons, if_pos (hall t (List.mem_cons_self _ _))]
    exact ih _ fun u hu => hall u (List.mem_cons_of_mem _ hu)

/-- C10: when every completed trade has strictly positive gain the loss
total is 0, so the guarded division reports a profit factor of exactly 0.
(The empty-trade case also reports 0.) -/
theorem C10_profit_factor_guarded (bs : List Bar)
    (h : ∀ t ∈ run_sim is_entry bs, 0 < t.gain_pct) :
    (run_backtest bs).profit_factor = 0 := by
  unfold run_backtest
  by_cases he : run_sim is_entry bs = []
  · rw [if_pos he]
  · rw [if_neg he]
    have hz : (wins_losses (run_sim is_entry bs)).2 = 0 := wins_losses_aux _ _ h
    simp [hz]

/-- C10 witness: series A's run (one winning trade, no losses) reports
profit factor 0. -/
theorem C10_witness : (run_backtest exA).profit_factor = 0 :=
  C10_profit_factor_guarded exA (by with_unfolding_all decide)
